import Mathlib

/-!
Verification of the json-ld core serialization subsystem.

This file shallowly embeds the Rust sources of the repository:
* `Multiset` equality (`compare_unordered`) and order-independent hashing
  (`crates/core/src/object/node/multiset.rs`);
* the literal-to-value mapper (`crates/serialization/src/expanded/value.rs`);
* the expanded-document, default-graph and named-graph serializers
  (`crates/serialization/src/expanded/{mod,default_graph}.rs`);
* the outbound list codec (`crates/core/src/deserialization/object/list.rs`).

Machine integers are modelled as `Nat` with explicit `% 2 ^ 64` where the
Rust code wraps; fallible code returns `Except`/`Option`; the abstract
vocabulary interns IRIs as their own lexical strings.
-/

namespace JsonLd

/-! ## Multiset (crates/core/src/object/node/multiset.rs)

`Multiset<T>` stores its elements in insertion order in a `Vec<T>`; equality
goes through `compare_unordered` and hashing through a wrapping sum of
per-element hashes.  The element vector is embedded as a `List`.
-/

/-- The greedy marking step inside `compare_unordered`: find the first index
`i` with `free[i] && item == b[i]`, mark it used.  `none` when no free equal
partner exists. -/
def markFirst {α : Type} [DecidableEq α] (item : α) : List α → List Bool → Option (List Bool)
  | y :: ys, f :: fs =>
    if f ∧ item = y then some (false :: fs)
    else (markFirst item ys fs).map (fun fs2 => f :: fs2)
  | _, _ => none

/-- The main loop of `compare_unordered`: each element of `a` claims the
first free equal element of `b`; returns `false` as soon as one finds no
partner. -/
def compareLoop {α : Type} [DecidableEq α] : List α → List α → List Bool → Bool
  | [], _, _ => true
  | x :: xs, b, free =>
    match markFirst x b free with
    | some free2 => compareLoop xs b free2
    | none => false

/-- Embedding of `compare_unordered` (multiset.rs lines 162-182): defined
only when lengths match, then greedy first-found pairing over a vector of
free flags initialised to all `true`. -/
def compare_unordered {α : Type} [DecidableEq α] (a b : List α) : Bool :=
  if a.length = b.length then compareLoop a b (List.replicate b.length true)
  else false

/-- The elements of `b` still available at free positions. -/
def avail {α : Type} : List α → List Bool → List α
  | y :: ys, f :: fs => if f then y :: avail ys fs else avail ys fs
  | _, _ => []

theorem markFirst_eq_none {α : Type} [DecidableEq α] (item : α) :
    ∀ (b : List α) (free : List Bool),
      markFirst item b free = none ↔ item ∉ avail b free := by
  intro b
  induction b with
  | nil => intro free; cases free <;> simp [markFirst, avail]
  | cons y ys ih =>
    intro free
    cases free with
    | nil => simp [markFirst, avail]
    | cons f fs =>
      by_cases hc : (f : Prop) ∧ item = y
      · have hf : f = true := hc.1
        subst hf
        rw [markFirst, if_pos hc]
        rw [show avail (y :: ys) (true :: fs) = y :: avail ys fs from rfl]
        simp [hc.2]
      · rw [markFirst, if_neg hc]
        cases hf : f with
        | false =>
          subst hf
          rw [show avail (y :: ys) (false :: fs) = avail ys fs from rfl,
            Option.map_eq_none']
          exact ih fs
        | true =>
          subst hf
          have hne : item ≠ y := fun h => hc ⟨rfl, h⟩
          rw [show avail (y :: ys) (true :: fs) = y :: avail ys fs from rfl,
            Option.map_eq_none', ih fs]
          simp [hne]

theorem markFirst_eq_some {α : Type} [DecidableEq α] (item : α) :
    ∀ (b : List α) (free free2 : List Bool),
      markFirst item b free = some free2 →
      avail b free2 = (avail b free).erase item := by
  intro b
  induction b with
  | nil => intro free free2 h; cases free <;> simp [markFirst] at h
  | cons y ys ih =>
    intro free free2 h
    cases free with
    | nil => simp [markFirst] at h
    | cons f fs =>
      by_cases hc : (f : Prop) ∧ item = y
      · have hf : f = true := hc.1
        subst hf
        rw [markFirst, if_pos hc] at h
        cases h
        rw [show avail (y :: ys) (false :: fs) = avail ys fs from rfl,
          show avail (y :: ys) (true :: fs) = y :: avail ys fs from rfl,
          hc.2, List.erase_cons_head]
      · rw [markFirst, if_neg hc] at h
        rcases Option.map_eq_some'.mp h with ⟨fs2, hrec, hcons⟩
        subst hcons
        cases hf : f with
        | false =>
          subst hf
          rw [show avail (y :: ys) (false :: fs2) = avail ys fs2 from rfl,
            show avail (y :: ys) (false :: fs) = avail ys fs from rfl]
          exact ih fs fs2 hrec
        | true =>
          subst hf
          have hne : item ≠ y := fun h2 => hc ⟨rfl, h2⟩
          have hyne : (y == item) = false := beq_eq_false_iff_ne.mpr (Ne.symm hne)
          rw [show avail (y :: ys) (true :: fs2) = y :: avail ys fs2 from rfl,
            show avail (y :: ys) (true :: fs) = y :: avail ys fs from rfl,
            List.erase_cons, hyne]
          rw [ih fs fs2 hrec]
          simp

theorem compareLoop_iff_le {α : Type} [DecidableEq α] :
    ∀ (a b : List α) (free : List Bool),
      compareLoop a b free = true ↔ (a : Multiset α) ≤ (avail b free : Multiset α) := by
  intro a
  induction a with
  | nil => intro b free; simp [compareLoop]
  | cons x xs ih =>
    intro b free
    rw [compareLoop]
    cases hm : markFirst x b free with
    | none =>
      have hmem : x ∉ avail b free := (markFirst_eq_none x b free).mp hm
      simp only [Bool.false_eq_true, false_iff]
      intro hle
      exact hmem (by
        have hxm : x ∈ ((x :: xs : List α) : Multiset α) := by simp
        have := Multiset.mem_of_le hle hxm
        simpa using this)
    | some free2 =>
      have hmem : x ∈ avail b free := by
        by_contra hx
        rw [← markFirst_eq_none x b free] at hx
        rw [hm] at hx
        cases hx
      have hxm : x ∈ (avail b free : Multiset α) := by simpa using hmem
      have herase : avail b free2 = (avail b free).erase x :=
        markFirst_eq_some x b free free2 hm
      rw [ih b free2, herase, ← Multiset.coe_erase]
      constructor
      · intro hle
        have h2 : x ::ₘ (xs : Multiset α) ≤ x ::ₘ ((avail b free : Multiset α).erase x) :=
          (Multiset.cons_le_cons_iff x).mpr hle
        rw [Multiset.cons_erase hxm] at h2
        simpa using h2
      · intro hle
        have h2 : x ::ₘ (xs : Multiset α) ≤ (avail b free : Multiset α) := by simpa using hle
        rw [← Multiset.cons_erase hxm] at h2
        exact (Multiset.cons_le_cons_iff x).mp h2

theorem avail_replicate {α : Type} (b : List α) :
    avail b (List.replicate b.length true) = b := by
  induction b with
  | nil => simp [avail]
  | cons y ys ih => simp [avail, List.replicate, ih]

/-- `compare_unordered` decides list permutation (multiset equality). -/
theorem compare_unordered_iff_perm {α : Type} [DecidableEq α] (a b : List α) :
    compare_unordered a b = true ↔ a.Perm b := by
  unfold compare_unordered
  by_cases hlen : a.length = b.length
  · rw [if_pos hlen, compareLoop_iff_le, avail_replicate]
    constructor
    · intro hle
      have hcard : Multiset.card (b : Multiset α) ≤ Multiset.card (a : Multiset α) := by
        simpa using Nat.le_of_eq hlen.symm
      have := Multiset.eq_of_le_of_card_le hle hcard
      exact Multiset.coe_eq_coe.mp this
    · intro hperm
      exact le_of_eq (Multiset.coe_eq_coe.mpr hperm)
  · rw [if_neg hlen]
    simp only [Bool.false_eq_true, false_iff]
    intro hperm
    exact hlen hperm.length_eq

/-- C3: Multiset equality is permutation-invariant and multiplicity-sensitive:
a Multiset built from a sequence equals one built from any permutation of it;
different lengths are never equal; and differing multiplicity of any value
makes the greedy first-found pairing of `compare_unordered` fail. -/
theorem multiset_equality_permutation_multiplicity {α : Type} [DecidableEq α] (a b : List α) :
    (a.Perm b → compare_unordered a b = true) ∧
    (a.length ≠ b.length → compare_unordered a b = false) ∧
    (∀ x : α, a.count x ≠ b.count x → compare_unordered a b = false) := by
  refine ⟨fun hp => (compare_unordered_iff_perm a b).mpr hp, fun hlen => ?_, fun x hx => ?_⟩
  · unfold compare_unordered
    rw [if_neg hlen]
  · rcases hcu : compare_unordered a b with _ | _
    · rfl
    · exact absurd (((compare_unordered_iff_perm a b).mp hcu).count_eq x) hx

/-- Concrete instantiation of C3: a permutation with duplicates is accepted,
a length mismatch is rejected, and a multiplicity mismatch is rejected. -/
theorem multiset_equality_permutation_multiplicity_witness :
    compare_unordered [1, 2, 2] [2, 2, 1] = true ∧
    compare_unordered [1, 2] [1, 2, 2] = false ∧
    compare_unordered [1, 1, 2] [1, 2, 2] = false :=
  ⟨(multiset_equality_permutation_multiplicity [1, 2, 2] [2, 2, 1]).1 (by decide),
   (multiset_equality_permutation_multiplicity [1, 2] [1, 2, 2]).2.1 (by decide),
   (multiset_equality_permutation_multiplicity [1, 1, 2] [1, 2, 2]).2.2 1 (by decide)⟩

/-! ### Multiset hash (multiset.rs lines 194-204)

`Hash for Multiset` folds `hash = hash.wrapping_add(self.hasher.hash_one(item))`
over the elements, starting from `0u64`.  The per-element hash function
(`DeterministicHasherBuilder`, a fixed unseeded `DefaultHasher`) is external
code, embedded as an arbitrary fixed function `h : α → Nat`. -/

/-- Embedding of `Hash for Multiset`: the wrapping `u64` sum, over the
elements in insertion order, of each element's individual hash. -/
def multiset_hash {α : Type} (h : α → Nat) (l : List α) : Nat :=
  l.foldl (fun acc x => (acc + h x) % 2 ^ 64) 0

theorem multiset_hash_foldl {α : Type} (h : α → Nat) :
    ∀ (l : List α) (acc : Nat), acc < 2 ^ 64 →
      l.foldl (fun acc2 x => (acc2 + h x) % 2 ^ 64) acc = (acc + (l.map h).sum) % 2 ^ 64 := by
  intro l
  induction l with
  | nil =>
    intro acc hacc
    rw [List.foldl_nil, List.map_nil, List.sum_nil, Nat.add_zero, Nat.mod_eq_of_lt hacc]
  | cons x xs ih =>
    intro acc hacc
    rw [List.foldl_cons, ih _ (Nat.mod_lt _ (by positivity)), List.map_cons, List.sum_cons,
      Nat.mod_add_mod, Nat.add_assoc]

/-- C4: the Multiset hash is order-independent: permuting the element
sequence leaves the wrapping-sum hash unchanged, for every per-element hash
function. -/
theorem multiset_hash_permutation_invariant {α : Type} (h : α → Nat) (a b : List α)
    (hp : a.Perm b) : multiset_hash h a = multiset_hash h b := by
  unfold multiset_hash
  rw [multiset_hash_foldl h a 0 (by positivity), multiset_hash_foldl h b 0 (by positivity)]
  rw [List.Perm.sum_eq (List.Perm.map h hp)]

/-- Concrete instantiation of C4 at the identity element hash. -/
theorem multiset_hash_permutation_invariant_witness :
    multiset_hash (fun x => x) [1, 2, 3] = multiset_hash (fun x => x) [3, 1, 2] :=
  multiset_hash_permutation_invariant (fun x => x) [1, 2, 3] [3, 1, 2] (by decide)

/-! ## Literal-to-Value mapper (crates/serialization/src/expanded/value.rs)

The abstract vocabulary `V` interns IRIs; its handles are embedded as the
IRI strings themselves, so `vocabulary.iri(&iri)` is the identity lookup and
`vocabulary.insert(iri)` returns the string unchanged.  JSON payloads
(`json_syntax::Value`) are embedded structurally. -/

/-- The `xsd:string` datatype IRI (`xsd_types::XSD_STRING`). -/
def XSD_STRING : String := "http://www.w3.org/2001/XMLSchema#string"

/-- Embedded JSON payload (`json_syntax::Value`), carried verbatim by
`Value::Json`. -/
inductive JsonValue : Type where
  | null
  | boolean (b : Bool)
  | number (lex : String)
  | string (s : String)
  | array (xs : List JsonValue)
  | object (fields : List (String × JsonValue))

/-- `json_ld_core::object::Literal`: the datatype-free payload of a
`Value::Literal`. -/
inductive Literal : Type where
  | boolean (b : Bool)
  | number (lex : String)
  | string (s : String)
deriving DecidableEq

/-- `json_ld_core::LangString`.  Modelled from the spec: a language-tagged
string value carrying the lexical string, the language tag and an optional
direction (the `LangString` type lives in the core crate outside `src/`). -/
structure LangString : Type where
  value : String
  language : Option String
  direction : Option String
deriving DecidableEq

/-- Modelled from the spec: `LangString::new` (core crate, outside `src/`)
fails exactly when neither a language tag nor a direction is given, since a
LangString must carry at least one of them. -/
def LangString.new (value : String) (language direction : Option String) :
    Option LangString :=
  match language, direction with
  | none, none => none
  | l, d => some ⟨value, l, d⟩

/-- `json_ld_core::Value`: a JSON-LD value object.  `literal` carries an
optional explicit datatype IRI. -/
inductive Value : Type where
  | literal (l : Literal) (ty : Option String)
  | langString (ls : LangString)
  | json (j : JsonValue)

/-- `rdf_types::LiteralType`: either a datatype IRI or a language tag. -/
inductive LiteralTypeKind : Type where
  | any (iri : String)
  | langString (language : String)
deriving DecidableEq

/-- `xsd_types::Value` as consumed by `xsd_to_value`.  Each numeric variant
carries the canonical lexical rendering its `to_string()` call produces
(the rendering itself is external `xsd_types` code); `other` covers every
remaining XSD datatype, carrying its datatype IRI and lexical rendering. -/
inductive XsdValue : Type where
  | boolean (b : Bool)
  | string (s : String)
  | decimal (lex : String)
  | integer (lex : String)
  | nonPositiveInteger (lex : String)
  | negativeInteger (lex : String)
  | long (lex : String)
  | int (lex : String)
  | short (lex : String)
  | byte (lex : String)
  | nonNegativeInteger (lex : String)
  | unsignedLong (lex : String)
  | unsignedInt (lex : String)
  | unsignedShort (lex : String)
  | unsignedByte (lex : String)
  | positiveInteger (lex : String)
  | other (ty : String) (lex : String)
deriving DecidableEq

/-- `xsd_types::Value::datatype().iri()`: the XSD datatype IRI of each
variant. -/
def XsdValue.datatype : XsdValue → String
  | .boolean _ => "http://www.w3.org/2001/XMLSchema#boolean"
  | .string _ => XSD_STRING
  | .decimal _ => "http://www.w3.org/2001/XMLSchema#decimal"
  | .integer _ => "http://www.w3.org/2001/XMLSchema#integer"
  | .nonPositiveInteger _ => "http://www.w3.org/2001/XMLSchema#nonPositiveInteger"
  | .negativeInteger _ => "http://www.w3.org/2001/XMLSchema#negativeInteger"
  | .long _ => "http://www.w3.org/2001/XMLSchema#long"
  | .int _ => "http://www.w3.org/2001/XMLSchema#int"
  | .short _ => "http://www.w3.org/2001/XMLSchema#short"
  | .byte _ => "http://www.w3.org/2001/XMLSchema#byte"
  | .nonNegativeInteger _ => "http://www.w3.org/2001/XMLSchema#nonNegativeInteger"
  | .unsignedLong _ => "http://www.w3.org/2001/XMLSchema#unsignedLong"
  | .unsignedInt _ => "http://www.w3.org/2001/XMLSchema#unsignedInt"
  | .unsignedShort _ => "http://www.w3.org/2001/XMLSchema#unsignedShort"
  | .unsignedByte _ => "http://www.w3.org/2001/XMLSchema#unsignedByte"
  | .positiveInteger _ => "http://www.w3.org/2001/XMLSchema#positiveInteger"
  | .other ty _ => ty

/-- `linked_data::RdfLiteral`: an interpreted RDF literal. -/
inductive RdfLiteral : Type where
  | any (s : String) (ty : LiteralTypeKind)
  | xsd (v : XsdValue)
  | json (j : JsonValue)

/-! ### JSON number grammar

`xsd_to_value` validates the rendered numeric string with
`json_syntax::Number::new`.  Modelled from the spec: that check accepts
exactly the syntactically valid JSON number tokens
(`-? (0 | [1-9][0-9]*) (. [0-9]+)? ([eE] [+-]? [0-9]+)?`). -/

/-- Drop a leading run of decimal digits. -/
def dropDigits : List Char → List Char
  | c :: cs => if c.isDigit then dropDigits cs else c :: cs
  | [] => []

/-- Consume the JSON integer part (`0` or a nonzero digit followed by
digits); `none` when absent. -/
def parseIntPart : List Char → Option (List Char)
  | '0' :: cs => some cs
  | c :: cs => if c.isDigit then some (dropDigits cs) else none
  | [] => none

/-- Consume an optional leading minus sign. -/
def parseMinus : List Char → List Char
  | '-' :: cs => cs
  | cs => cs

/-- Consume an optional JSON fraction part (`.` followed by one or more
digits); `none` when a dot is not followed by a digit. -/
def parseFracPart : List Char → Option (List Char)
  | '.' :: c :: cs => if c.isDigit then some (dropDigits cs) else none
  | ['.'] => none
  | cs => some cs

/-- Consume the tail of a JSON exponent: an optional sign followed by one or
more digits. -/
def parseExpTail (cs : List Char) : Option (List Char) :=
  match cs with
  | '+' :: c :: cs => if c.isDigit then some (dropDigits cs) else none
  | '-' :: c :: cs => if c.isDigit then some (dropDigits cs) else none
  | c :: cs => if c.isDigit then some (dropDigits cs) else none
  | [] => none

/-- Consume an optional JSON exponent part. -/
def parseExpPart : List Char → Option (List Char)
  | 'e' :: cs => parseExpTail cs
  | 'E' :: cs => parseExpTail cs
  | cs => some cs

/-- Whether a string is a syntactically valid JSON number token. -/
def isJsonNumber (s : String) : Bool :=
  match parseIntPart (parseMinus s.data) with
  | none => false
  | some rest =>
    match parseFracPart rest with
    | none => false
    | some rest2 =>
      match parseExpPart rest2 with
      | none => false
      | some rest3 => rest3.isEmpty

/-- Embedding of `xsd_to_value` (value.rs lines 30-65): booleans and strings
return untagged `Boolean`/`String` values; the recognized numeric variants
render their canonical lexical string and return an untagged `Number` when
it is a valid JSON number, else a `String` tagged with the datatype IRI;
every other datatype returns a `String` tagged with its datatype IRI. -/
def xsd_to_value (value : XsdValue) : Value :=
  let ty := value.datatype
  let number :=
    match value with
    | .boolean b => Except.error (Value.literal (.boolean b) none)
    | .string s => Except.error (Value.literal (.string s) none)
    | .decimal v => Except.ok v
    | .integer v => Except.ok v
    | .nonPositiveInteger v => Except.ok v
    | .negativeInteger v => Except.ok v
    | .long v => Except.ok v
    | .int v => Except.ok v
    | .short v => Except.ok v
    | .byte v => Except.ok v
    | .nonNegativeInteger v => Except.ok v
    | .unsignedLong v => Except.ok v
    | .unsignedInt v => Except.ok v
    | .unsignedShort v => Except.ok v
    | .unsignedByte v => Except.ok v
    | .positiveInteger v => Except.ok v
    | .other _ lex => Except.error (Value.literal (.string lex) (some ty))
  match number with
  | .error early => early
  | .ok number =>
    if isJsonNumber number then Value.literal (.number number) none
    else Value.literal (.string number) (some ty)

/-- Embedding of `literal_to_value` (value.rs lines 6-28).  The result is
`Option`-valued: `none` marks the panic of the `.unwrap()` on
`LangString::new`; the vocabulary IRI lookup is the identity on the string
handles of this embedding. -/
def literal_to_value : RdfLiteral → Option Value
  | .any s (.any iri) =>
    let literal_ty := if iri = XSD_STRING then none else some iri
    some (.literal (.string s) literal_ty)
  | .any s (.langString language) =>
    (LangString.new s (some language) none).map Value.langString
  | .xsd v => some (xsd_to_value v)
  | .json j => some (.json j)

/-- C2: the literal-to-value mapper is total: every RDF literal of every
kind (typed, language-tagged, or embedded JSON) maps to some JSON-LD value;
no branch panics or errors. -/
theorem literal_to_value_total (lit : RdfLiteral) :
    ∃ v : Value, literal_to_value lit = some v := by
  cases lit with
  | any s ty =>
    cases ty with
    | any iri => exact ⟨_, rfl⟩
    | langString language => exact ⟨_, rfl⟩
  | xsd v => exact ⟨_, rfl⟩
  | json j => exact ⟨_, rfl⟩

/-- The numeric XSD variants recognized by `xsd_to_value` (value.rs lines
35-48). -/
def numericXsdConstructors : List (String → XsdValue) :=
  [XsdValue.decimal, XsdValue.integer, XsdValue.nonPositiveInteger,
   XsdValue.negativeInteger, XsdValue.long, XsdValue.int, XsdValue.short,
   XsdValue.byte, XsdValue.nonNegativeInteger, XsdValue.unsignedLong,
   XsdValue.unsignedInt, XsdValue.unsignedShort, XsdValue.unsignedByte,
   XsdValue.positiveInteger]

/-- C6: for every recognized numeric XSD literal, the mapper takes the
canonical lexical string and returns an untagged `Number` holding that
exact string when it is a valid JSON number token, and otherwise a `String`
tagged with the specific XSD datatype IRI. -/
theorem xsd_numeric_literal_mapping (mk : String → XsdValue)
    (hmk : mk ∈ numericXsdConstructors) (lex : String) :
    xsd_to_value (mk lex) =
      if isJsonNumber lex then Value.literal (.number lex) none
      else Value.literal (.string lex) (some (mk lex).datatype) := by
  simp only [numericXsdConstructors, List.mem_cons, List.not_mem_nil, or_false] at hmk
  rcases hmk with h | h | h | h | h | h | h | h | h | h | h | h | h | h <;> subst h <;> rfl

/-- Concrete instantiation of C6: a decimal literal with canonical lexical
form "3.14" maps to an untagged Number holding "3.14". -/
theorem xsd_numeric_literal_mapping_witness :
    xsd_to_value (XsdValue.decimal "3.14") = Value.literal (.number "3.14") none := by
  rw [xsd_numeric_literal_mapping XsdValue.decimal
    (by simp [numericXsdConstructors]) "3.14"]
  rfl

/-- C7: a typed literal whose datatype IRI is exactly `xsd:string` maps to a
String value with no datatype tag, while any other datatype IRI reaching the
string paths yields a String value tagged with that datatype IRI. -/
theorem typed_string_literal_mapping (s iri ty lex : String) :
    (iri = XSD_STRING →
      literal_to_value (.any s (.any iri)) = some (.literal (.string s) none)) ∧
    (iri ≠ XSD_STRING →
      literal_to_value (.any s (.any iri)) = some (.literal (.string s) (some iri))) ∧
    xsd_to_value (.other ty lex) = .literal (.string lex) (some ty) := by
  refine ⟨fun h => ?_, fun h => ?_, rfl⟩
  · simp [literal_to_value, h]
  · simp [literal_to_value, h]

/-- Concrete instantiation of C7: the implicit `xsd:string` datatype is
dropped, a custom datatype IRI is kept as the tag. -/
theorem typed_string_literal_mapping_witness :
    literal_to_value (.any "abc" (.any XSD_STRING)) =
      some (.literal (.string "abc") none) ∧
    literal_to_value (.any "abc" (.any "http://example.org/dt")) =
      some (.literal (.string "abc") (some "http://example.org/dt")) :=
  ⟨(typed_string_literal_mapping "abc" XSD_STRING "t" "l").1 rfl,
   (typed_string_literal_mapping "abc" "http://example.org/dt" "t" "l").2.1 (by decide)⟩

/-- C8: a language-tagged literal maps to a LangString value carrying the
lexical string and the language tag; the input carries no direction, so none
is attached, and no datatype IRI is attached. -/
theorem lang_tagged_literal_mapping (s language : String) :
    literal_to_value (.any s (.langString language)) =
      some (.langString ⟨s, some language, none⟩) := rfl

/-! ## Document serializer (crates/serialization/src/expanded/mod.rs and
default_graph.rs)

The reverse interpretation of a subject (`lexical_representation`) is an
input: `none` when the subject has no lexical representation, otherwise an
RDF term.  The nested graph serialization (`value.visit_graph(..)`) and the
node-subject serialization (`value.visit_subject(..)`) are the callees'
contributions, passed in as their `Result` values. -/

/-- IRI or blank-node identifier (`rdf_types::Id`). -/
inductive TermId : Type where
  | iri (s : String)
  | blank (s : String)

/-- `rdf_types::Term`: a lexical representation, either an identifier or a
literal. -/
inductive RdfTerm : Type where
  | literal (lit : RdfLiteral)
  | id (i : TermId)

/-- The serialization error type (`crate::Error`).  Modelled from the spec:
the crate surfaces the single discriminated error `InvalidGraph` from the
named-graph path (the `Error` enum lives in `lib.rs`, outside `src/`). -/
inductive Err : Type where
  | invalidGraph

/-- A JSON-LD object.  The `node` constructor carries the optional id and
the optional named graph; the remaining `Node` fields (types, properties,
reverse properties) are created empty by `Node::new`/`Node::with_id` and are
untouched by the document-level paths embedded here. -/
inductive Object : Type where
  | value (v : Value)
  | node (id : Option TermId) (graph : Option (List (Object × Option String)))

/-- `Indexed<Object>`: an object paired with its optional `@index`;
`Indexed::new(o, None)` is `(o, none)`. -/
abbrev IndexedObject : Type := Object × Option String

/-- Embedding of `SerializeExpandedDocument::named_graph` (mod.rs lines
67-90): `repr` is the naming subject's lexical representation and
`visitGraph` the result of serializing the graph's contents; `result` is the
document collection built so far (`ExpandedDocument::insert` appends). -/
def named_graph (result : List IndexedObject) (repr : Option RdfTerm)
    (visitGraph : Except Err (List IndexedObject)) :
    Except Err (List IndexedObject) :=
  match repr with
  | some (.literal _) => .error .invalidGraph
  | some (.id i) =>
    match visitGraph with
    | .error e => .error e
    | .ok g => .ok (result ++ [(Object.node (some i) (some g), none)])
  | none =>
    match visitGraph with
    | .error e => .error e
    | .ok g => .ok (result ++ [(Object.node none (some g), none)])

/-- Modelled from the spec: the document-level driver (§4.4; the
`linked_data` visitor protocol lives outside this repository) calls the
named-graph callback once per named graph in order, passing each returned
`Result` through unchanged, fail-fast.  This folds the named-graph phase
over the accumulated document. -/
def run_named_graphs (result : List IndexedObject) :
    List (Option RdfTerm × Except Err (List IndexedObject)) →
    Except Err (List IndexedObject)
  | [] => .ok result
  | e :: rest =>
    match named_graph result e.1 e.2 with
    | .ok result2 => run_named_graphs result2 rest
    | .error err => .error err

theorem run_named_graphs_append
    (l1 l2 : List (Option RdfTerm × Except Err (List IndexedObject))) :
    ∀ result : List IndexedObject,
      run_named_graphs result (l1 ++ l2) =
        match run_named_graphs result l1 with
        | .ok d => run_named_graphs d l2
        | .error e => .error e := by
  induction l1 with
  | nil => intro result; rfl
  | cons e l1 ih =>
    intro result
    rw [List.cons_append, run_named_graphs, run_named_graphs]
    cases named_graph result e.1 e.2 with
    | error err => rfl
    | ok result2 => exact ih result2

/-- C1: a named graph whose naming subject's lexical representation resolves
to a literal term makes the `named_graph` callback return `InvalidGraph`,
and the error aborts the named-graph phase immediately: after any successful
prefix, the whole run returns the bare error whatever graphs remain, so no
partial document reaches the caller. -/
theorem named_graph_literal_invalid (result doc : List IndexedObject)
    (pre rest : List (Option RdfTerm × Except Err (List IndexedObject)))
    (lit : RdfLiteral) (vg : Except Err (List IndexedObject))
    (hpre : run_named_graphs result pre = .ok doc) :
    named_graph doc (some (.literal lit)) vg = .error .invalidGraph ∧
    run_named_graphs result (pre ++ (some (.literal lit), vg) :: rest) =
      .error .invalidGraph := by
  refine ⟨rfl, ?_⟩
  rw [run_named_graphs_append, hpre]
  rfl

/-- Concrete instantiation of C1: one literal-named graph aborts the run. -/
theorem named_graph_literal_invalid_witness :
    run_named_graphs []
      [(some (.literal (.any "x" (.any "http://example.org/d"))), Except.ok [])] =
      .error .invalidGraph :=
  (named_graph_literal_invalid [] [] [] []
    (.any "x" (.any "http://example.org/d")) (.ok []) rfl).2

/-- Embedding of `SerializeDefaultGraph::subject` (default_graph.rs lines
50-72).  `visitNode` stands for `value.visit_subject(SerializeNode::new(..))`
building a full Node object for the given optional id; the outer `Option`
marks the (never taken) panic of the literal mapper. -/
def default_graph_subject (result : List IndexedObject) (repr : Option RdfTerm)
    (visitNode : Option TermId → Except Err Object) :
    Option (Except Err (List IndexedObject)) :=
  match repr with
  | some (.literal lit) =>
    (literal_to_value lit).map fun v => .ok (result ++ [(Object.value v, none)])
  | some (.id i) =>
    some (match visitNode (some i) with
      | .error e => .error e
      | .ok node => .ok (result ++ [(node, none)]))
  | none =>
    some (match visitNode none with
      | .error e => .error e
      | .ok node => .ok (result ++ [(node, none)]))

/-- C9: a default-graph subject whose lexical representation resolves to a
literal is inserted directly as a top-level Value object through the literal
mapper, and the callback returns success; the node-subject visitor is never
consulted (the outcome is the same for every `visitNode`). -/
theorem default_graph_literal_subject (result : List IndexedObject)
    (repr : Option RdfTerm) (lit : RdfLiteral) (v : Value)
    (visitNode visitNode2 : Option TermId → Except Err Object)
    (h1 : repr = some (.literal lit)) (h2 : literal_to_value lit = some v) :
    default_graph_subject result repr visitNode =
      some (.ok (result ++ [(Object.value v, none)])) ∧
    default_graph_subject result repr visitNode =
      default_graph_subject result repr visitNode2 := by
  subst h1
  exact ⟨by simp [default_graph_subject, h2], rfl⟩

/-- Concrete instantiation of C9 on a plain-string literal subject. -/
theorem default_graph_literal_subject_witness :
    default_graph_subject [] (some (.literal (.any "hi" (.any XSD_STRING))))
        (fun _ => .error .invalidGraph) =
      some (.ok [(Object.value (.literal (.string "hi") none), none)]) :=
  (default_graph_literal_subject [] _ (.any "hi" (.any XSD_STRING))
    (.literal (.string "hi") none) (fun _ => .error .invalidGraph)
    (fun _ => .ok (Object.node none none)) rfl rfl).1

/-- C10: a named graph whose naming subject has no lexical representation is
serialized without error: a fresh Node with no id receives the graph's
contents in its graph field and is inserted into the default graph's object
collection exactly as an identifier-named graph is. -/
theorem named_graph_unidentified_subject (result g : List IndexedObject) :
    named_graph result none (.ok g) =
      .ok (result ++ [(Object.node none (some g), none)]) ∧
    (∀ i : TermId, named_graph result (some (.id i)) (.ok g) =
      .ok (result ++ [(Object.node (some i) (some g), none)])) :=
  ⟨rfl, fun _ => rfl⟩

/-! ## Outbound list codec (crates/core/src/deserialization/object/list.rs)

`Rest::visit_subject` emits, for a non-empty remaining slice, the predicate
`rdf:first` with the head element and the predicate `rdf:rest` with the
sub-chain `Rest(rest)`, then ends; an empty slice ends immediately.  Lists
and sub-chains are `Uninterpreted` resources, so their subjects are blank
nodes freshly minted by the surrounding graph generator. -/

/-- The two RDF list predicates. -/
inductive ListPred : Type where
  | first
  | rest
deriving DecidableEq

/-- The object of an emitted chain triple: either the representation of the
contained element or the fresh blank subject of the sub-chain. -/
inductive ChainObj (α : Type) : Type where
  | elem (a : α)
  | chain (id : Nat)
deriving DecidableEq

/-- One emitted RDF triple of a list chain; fresh blank subjects are
numbered. -/
structure ChainTriple (α : Type) : Type where
  subj : Nat
  pred : ListPred
  obj : ChainObj α
deriving DecidableEq

/-- Embedding of `Rest::visit_subject` (list.rs lines 101-112) together with
the surrounding graph generator.  Modelled from the spec where the generator
is concerned (the `linked_data` visitor runtime lives outside this
repository): list subjects are uninterpreted, so the generator mints fresh
blank subjects, embedded as a counter `next`, and each `visitor.predicate`
call on the current subject `s` emits one triple.  An empty slice emits
nothing; `first :: rest` emits `rdf:first` to the element and `rdf:rest` to
the fresh sub-chain subject, then recurses on `rest`. -/
def encode_rest {α : Type} : Nat → Nat → List α → List (ChainTriple α)
  | _, _, [] => []
  | s, next, first :: rest =>
    ⟨s, .first, .elem first⟩ :: ⟨s, .rest, .chain next⟩ ::
      encode_rest next (next + 1) rest

/-- The subject of the i-th chain link: the root subject for link 0, then
the freshly minted subjects in order. -/
def chainSubj (s n : Nat) : Nat → Nat
  | 0 => s
  | i + 1 => n + i

theorem chainSubj_shift (n : Nat) : ∀ i : Nat, chainSubj n (n + 1) i = n + i := by
  intro i
  cases i with
  | zero => rfl
  | succ i => simp only [chainSubj]; omega

theorem encode_rest_length {α : Type} (l : List α) :
    ∀ s n : Nat, (encode_rest s n l).length = 2 * l.length := by
  induction l with
  | nil => intro s n; rfl
  | cons x xs ih =>
    intro s n
    rw [encode_rest, List.length_cons, List.length_cons, ih n (n + 1),
      List.length_cons]
    omega

theorem encode_rest_first_triples {α : Type} (l : List α) :
    ∀ s n : Nat,
      (encode_rest s n l).filter (fun t => t.pred == ListPred.first) =
        ((List.range l.length).zip l).map
          (fun p => ⟨chainSubj s n p.1, ListPred.first, ChainObj.elem p.2⟩) := by
  induction l with
  | nil => intro s n; rfl
  | cons x xs ih =>
    intro s n
    have hmap : ∀ p ∈ (List.range xs.length).zip xs,
        (fun p : Nat × α =>
          (⟨chainSubj n (n + 1) p.1, ListPred.first, ChainObj.elem p.2⟩ : ChainTriple α)) p =
        ((fun p : Nat × α =>
          (⟨chainSubj s n p.1, ListPred.first, ChainObj.elem p.2⟩ : ChainTriple α)) ∘
            Prod.map Nat.succ id) p := by
      intro p _
      obtain ⟨i, a⟩ := p
      simp only [Function.comp_apply, Prod.map_apply, id_eq, chainSubj_shift]
      rfl
    rw [show (encode_rest s n (x :: xs)).filter (fun t => t.pred == ListPred.first) =
          (⟨s, .first, .elem x⟩ : ChainTriple α) ::
            (encode_rest n (n + 1) xs).filter (fun t => t.pred == ListPred.first) from rfl,
      ih n (n + 1), List.length_cons, List.range_succ_eq_map, List.zip_cons_cons,
      List.map_cons, List.zip_map_left, List.map_map, List.map_congr_left hmap]
    rfl

theorem encode_rest_rest_triples {α : Type} (l : List α) :
    ∀ s n : Nat,
      (encode_rest s n l).filter (fun t => t.pred == ListPred.rest) =
        (List.range l.length).map
          (fun i => ⟨chainSubj s n i, ListPred.rest,
            ChainObj.chain (chainSubj s n (i + 1))⟩) := by
  induction l with
  | nil => intro s n; rfl
  | cons x xs ih =>
    intro s n
    have hmap : ∀ i ∈ List.range xs.length,
        (fun i => (⟨chainSubj n (n + 1) i, ListPred.rest,
          ChainObj.chain (chainSubj n (n + 1) (i + 1))⟩ : ChainTriple α)) i =
        ((fun i => (⟨chainSubj s n i, ListPred.rest,
          ChainObj.chain (chainSubj s n (i + 1))⟩ : ChainTriple α)) ∘ Nat.succ) i := by
      intro i _
      simp only [Function.comp_apply, chainSubj_shift]
      rfl
    rw [show (encode_rest s n (x :: xs)).filter (fun t => t.pred == ListPred.rest) =
          (⟨s, .rest, .chain n⟩ : ChainTriple α) ::
            (encode_rest n (n + 1) xs).filter (fun t => t.pred == ListPred.rest) from rfl,
      ih n (n + 1), List.length_cons, List.range_succ_eq_map, List.map_cons,
      List.map_map, List.map_congr_left hmap]
    rfl

theorem chainSubj_injective (s n : Nat) (hsn : s < n) :
    Function.Injective (chainSubj s n) := by
  intro i j h
  cases i with
  | zero =>
    cases j with
    | zero => rfl
    | succ j => simp only [chainSubj] at h; omega
  | succ i =>
    cases j with
    | zero => simp only [chainSubj] at h; omega
    | succ j => simp only [chainSubj] at h; omega

/-- C5: encoding a list emits no chain triples for the empty slice; for
`first :: rest` it emits exactly one `rdf:first` triple to the element and
one `rdf:rest` triple to the freshly minted sub-chain subject, then recurses
on `rest`; in total 2N triples arranged as a strict singly-linked chain: the
i-th link's first-triple holds the i-th element, its rest-triple targets the
(i+1)-th link's subject, and all link subjects are pairwise distinct. -/
theorem list_codec_chain_shape {α : Type} (l : List α) (s n : Nat) (hsn : s < n) :
    (encode_rest s n l).length = 2 * l.length ∧
    encode_rest s n ([] : List α) = [] ∧
    (∀ (x : α) (xs : List α), encode_rest s n (x :: xs) =
      ⟨s, .first, .elem x⟩ :: ⟨s, .rest, .chain n⟩ :: encode_rest n (n + 1) xs) ∧
    (encode_rest s n l).filter (fun t => t.pred == ListPred.first) =
      ((List.range l.length).zip l).map
        (fun p => ⟨chainSubj s n p.1, ListPred.first, ChainObj.elem p.2⟩) ∧
    (encode_rest s n l).filter (fun t => t.pred == ListPred.rest) =
      (List.range l.length).map
        (fun i => ⟨chainSubj s n i, ListPred.rest,
          ChainObj.chain (chainSubj s n (i + 1))⟩) ∧
    ((List.range (l.length + 1)).map (chainSubj s n)).Nodup :=
  ⟨encode_rest_length l s n, rfl, fun _ _ => rfl,
   encode_rest_first_triples l s n, encode_rest_rest_triples l s n,
   (List.nodup_range _).map (chainSubj_injective s n hsn)⟩

/-- Concrete instantiation of C5: a two-element list yields four chain
triples. -/
theorem list_codec_chain_shape_witness :
    (encode_rest 0 1 ["a", "b"]).length = 2 * 2 :=
  (list_codec_chain_shape ["a", "b"] 0 1 (by decide)).1

end JsonLd
